import Mathlib

/-!
Verification development for the recipe-explorer service.

Shallow embedding of the search-aggregation core:
`app/services/search_service.py` (SearchService.combined_search),
`app/services/themealdb_adapter.py` (TheMealDBAdapter: ingredient /
instruction parsing, id convention, random batch),
`app/services/storage.py` (RecipeStorage), and the duplicate-title rules
of `app/routes/api.py` (create_recipe / update_recipe handlers).

Python strings are modelled as `List Char`; Python `None`-able values as
`Option`; a branch that may raise as `Except String`.  Machine timestamps
are irrelevant to the verified properties and are modelled as `Nat`.
-/

/-- Convert a Lean string literal to the `List Char` model of Python strings. -/
def lc (s : String) : List Char := s.data

/-- The whitespace characters stripped by Python `str.strip()` (ASCII range). -/
def isWS (c : Char) : Bool :=
  c == ' ' || c == '\t' || c == '\n' || c == '\r' || c == '\x0b' || c == '\x0c'

/-- Python `str.strip()`: drop whitespace from both ends. -/
def pstrip (l : List Char) : List Char :=
  ((l.dropWhile isWS).reverse.dropWhile isWS).reverse

/-- Python `str.lower()` (ASCII model). -/
def plower (l : List Char) : List Char := l.map Char.toLower

/-- Python `needle in hay` substring test. -/
def substr (needle hay : List Char) : Bool :=
  hay.tails.any (fun t => needle.isPrefixOf t)

/-- Provenance marker of a recipe (`RecipeSource` in `app/models.py`). -/
inductive RecipeSource where
  | internal : RecipeSource
  | external : RecipeSource
deriving DecidableEq, Repr

/-- Canonical recipe entity (`Recipe` in `app/models.py`). -/
structure Recipe where
  id : List Char
  title : List Char
  description : List Char
  ingredients : List (List Char)
  instructions : List (List Char)
  tags : List (List Char)
  cuisine : List Char
  source : RecipeSource
  created_at : Nat
  updated_at : Nat
deriving DecidableEq, Repr

/-- Payload of a create request (`RecipeCreate` in `app/models.py`). -/
structure RecipeCreate where
  title : List Char
  description : List Char
  ingredients : List (List Char)
  instructions : List (List Char)
  tags : List (List Char)
  cuisine : List Char
deriving DecidableEq, Repr

/-- Payload of an update request (`RecipeUpdate`, identical shape to create). -/
abbrev RecipeUpdate := RecipeCreate

/-- Ephemeral aggregation of one query (`SearchResult` in `app/models.py`). -/
structure SearchResult where
  recipes : List Recipe
  total_count : Nat
  internal_count : Nat
  external_count : Nat
  query : List Char
deriving DecidableEq, Repr

/-!
## Search aggregator — `SearchService.combined_search`

The two branch tasks are gathered with `return_exceptions=True`; a branch
is modelled as `Except String (List Recipe)`: `.error` is the branch's
task having raised, `.ok` its recipe list.
-/

/-- `SearchService.combined_search`: absorb per-branch failures into empty
lists, concatenate internal-first, cap at `limit`, report uncapped
per-source counts. -/
def combined_search (query : List Char) (limit : Nat)
    (internalRes externalRes : Except String (List Recipe)) : SearchResult :=
  let internal_recipes := match internalRes with
    | .error _ => []
    | .ok l => l
  let external_recipes := match externalRes with
    | .error _ => []
    | .ok l => l
  let all_recipes := internal_recipes ++ external_recipes
  let all_recipes := if all_recipes.length > limit
    then all_recipes.take limit else all_recipes
  { recipes := all_recipes
  , total_count := all_recipes.length
  , internal_count := internal_recipes.length
  , external_count := external_recipes.length
  , query := query }

/-!
## Local catalog — `RecipeStorage`

The in-memory dict `self._recipes : Dict[str, Recipe]` is modelled as an
association list keyed by recipe id (Python dicts preserve insertion
order; lookups take the first hit, and our stores never repeat a key).
-/

/-- The storage state: the `_recipes` dict as an ordered association list. -/
abbrev Store : Type := List (List Char × Recipe)

/-- `RecipeStorage.get_all_recipes`: every stored recipe whose source is INTERNAL. -/
def get_all_recipes (store : Store) : List Recipe :=
  (store.map Prod.snd).filter (fun r => r.source == RecipeSource.internal)

/-- `RecipeStorage.get_recipe`: keyed lookup, INTERNAL only. -/
def get_recipe (store : Store) (recipe_id : List Char) : Option Recipe :=
  match store.lookup recipe_id with
  | some r => if r.source == RecipeSource.internal then some r else none
  | none => none

/-- `RecipeStorage.create_recipe`: append a fresh INTERNAL recipe under a
fresh id. -/
def create_recipe (store : Store) (recipe_id : List Char)
    (d : RecipeCreate) (now : Nat) : Store × Recipe :=
  let r : Recipe :=
    { id := recipe_id, title := d.title, description := d.description
    , ingredients := d.ingredients, instructions := d.instructions
    , tags := d.tags, cuisine := d.cuisine
    , source := RecipeSource.internal, created_at := now, updated_at := now }
  (store ++ [(recipe_id, r)], r)

/-- `RecipeStorage.update_recipe`: overwrite the fields of an existing
INTERNAL recipe in place; `none` (not found) otherwise, leaving the store
untouched. -/
def update_recipe (store : Store) (recipe_id : List Char)
    (d : RecipeUpdate) (now : Nat) : Store × Option Recipe :=
  match store.lookup recipe_id with
  | none => (store, none)
  | some r =>
    if r.source == RecipeSource.internal then
      let r2 : Recipe :=
        { r with
          title := d.title
          description := d.description
          ingredients := d.ingredients
          instructions := d.instructions
          tags := d.tags
          cuisine := d.cuisine
          updated_at := now }
      (store.map (fun p => if p.1 == recipe_id then (p.1, r2) else p), some r2)
    else (store, none)

/-- `RecipeStorage.delete_recipe`: remove an INTERNAL recipe, reporting
success; a missing or non-INTERNAL id leaves the store untouched and
reports `false`. -/
def delete_recipe (store : Store) (recipe_id : List Char) : Store × Bool :=
  match store.lookup recipe_id with
  | none => (store, false)
  | some r =>
    if r.source == RecipeSource.internal then
      (store.filter (fun p => !(p.1 == recipe_id)), true)
    else (store, false)

/-- The match test of `RecipeStorage.search_recipes`, exactly as the code
chains it: title, description, any ingredient, any tag, cuisine. -/
def recipe_matches (query_lower : List Char) (r : Recipe) : Bool :=
  substr query_lower (plower r.title) ||
  substr query_lower (plower r.description) ||
  r.ingredients.any (fun i => substr query_lower (plower i)) ||
  r.tags.any (fun t => substr query_lower (plower t)) ||
  substr query_lower (plower r.cuisine)

/-- `RecipeStorage.search_recipes`: case-insensitive substring search over
the INTERNAL recipes. -/
def search_recipes (store : Store) (query : List Char) : List Recipe :=
  let query_lower := plower query
  (store.map Prod.snd).filter
    (fun r => r.source == RecipeSource.internal && recipe_matches query_lower r)

/-!
## Remote provider client — `TheMealDBAdapter`

A provider meal record (`meals[i]` JSON object).  A JSON `null` or a
missing key both read back as Python `None` through `dict.get`, modelled
as `none`; `dict.get(key, default)` is modelled with `Option.getD`.
The 20 parallel ingredient/measure slots `strIngredient1..20` /
`strMeasure1..20` are modelled as a list of pairs in slot order.
-/

structure Meal where
  idMeal : List Char
  strMeal : Option (List Char)
  strInstructions : Option (List Char)
  strArea : Option (List Char)
  strCategory : Option (List Char)
  strTags : Option (List Char)
  ingredientSlots : List (Option (List Char) × Option (List Char))
deriving Repr

/-- Python truthiness of an optional string: present and non-empty. -/
def truthy (o : Option (List Char)) : Bool :=
  match o with
  | some s => !s.isEmpty
  | none => false

/-- One slot of `TheMealDBAdapter._parse_ingredients`: skip a missing or
blank ingredient name; join a non-blank measure as `"{measure} {ingredient}"`,
else keep the bare trimmed name. -/
def parse_ingredient_slot
    (slot : Option (List Char) × Option (List Char)) : List (List Char) :=
  match slot.1 with
  | none => []
  | some ingredient =>
    if !ingredient.isEmpty && !(pstrip ingredient).isEmpty then
      match slot.2 with
      | some measure =>
        if !measure.isEmpty && !(pstrip measure).isEmpty then
          [pstrip measure ++ [' '] ++ pstrip ingredient]
        else [pstrip ingredient]
      | none => [pstrip ingredient]
    else []

/-- `TheMealDBAdapter._parse_ingredients`: walk the slots in order. -/
def parse_ingredients
    (slots : List (Option (List Char) × Option (List Char))) : List (List Char) :=
  slots.flatMap parse_ingredient_slot

/-!
### Instruction parsing — `TheMealDBAdapter._parse_instructions`

Phase 1 picks a splitting method (numbered pattern vs line breaks), phase
2 re-splits any step longer than `MAX_STEP_LENGTH`.
-/

/-- The regex `\d+\.\s*` split of `re.split` as a character scanner:
a maximal digit run immediately followed by a period (then maximal
whitespace) is a separator.  `acc` is the pending fragment, `run` the
pending digit run, both reversed; `skip` is the post-period whitespace
mode. -/
def splitNumberedGo : Bool → List Char → List Char → List Char → List (List Char)
  | _, acc, run, [] => [(run ++ acc).reverse]
  | skip, acc, run, c :: rest =>
    if skip && isWS c then splitNumberedGo true acc run rest
    else if c.isDigit then splitNumberedGo false acc (c :: run) rest
    else if c == '.' && !run.isEmpty then
      acc.reverse :: splitNumberedGo true [] [] rest
    else splitNumberedGo false (c :: (run ++ acc)) [] rest

/-- `re.split(r'\d+\.\s*', text)`. -/
def splitNumbered (text : List Char) : List (List Char) :=
  splitNumberedGo false [] [] text

/-- `text.replace('\r\n', '\n').replace('\r', '\n')`. -/
def normalizeNewlines : List Char → List Char
  | [] => []
  | '\r' :: '\n' :: rest => '\n' :: normalizeNewlines rest
  | '\r' :: rest => '\n' :: normalizeNewlines rest
  | c :: rest => c :: normalizeNewlines rest

/-- Phase 1 of `_parse_instructions`: numbered split when a digit occurs in
the first 10 characters, else line-break split keeping trimmed fragments
longer than 10 characters. -/
def extract_steps (text : List Char) : List (List Char) :=
  if (text.take 10).any Char.isDigit then
    ((splitNumbered text).map pstrip).filter (fun s => !s.isEmpty)
  else
    (((normalizeNewlines text).splitOn '\n').map pstrip).filter
      (fun s => !s.isEmpty && s.length > 10)

/-- The `if not steps: steps = [instructions_text.strip()]` fallback. -/
def select_steps (text : List Char) : List (List Char) :=
  if (extract_steps text).isEmpty then [pstrip text] else extract_steps text

/-- `MAX_STEP_LENGTH` of `_parse_instructions` (the Recipe model limit). -/
def MAX_STEP_LENGTH : Nat := 500

/-- The indices scanned by `range(MAX_STEP_LENGTH - 1, max(0, MAX_STEP_LENGTH - 100), -1)`:
499 down to 401. -/
def boundary_idxs : List Nat :=
  (List.range (MAX_STEP_LENGTH - 1 - max 0 (MAX_STEP_LENGTH - 100))).map
    (fun k => MAX_STEP_LENGTH - 1 - k)

/-- `remaining[i] in '.!?' and (i + 1 >= len(remaining) or remaining[i + 1] == ' ')`. -/
def isSentenceBoundary (r : List Char) (i : Nat) : Bool :=
  (match r.get? i with
   | some c => c == '.' || c == '!' || c == '?'
   | none => false) &&
  (decide (i + 1 ≥ r.length) || r.get? (i + 1) == some ' ')

/-- The backward scan for a sentence boundary in the trailing ~100
characters before the max-length cut. -/
def findSentenceIdx (r : List Char) : Option Nat :=
  boundary_idxs.find? (isSentenceBoundary r)

/-- `remaining.rfind(' ', 0, MAX_STEP_LENGTH)` as an `Option`. -/
def rfindSpace (r : List Char) : Option Nat :=
  (List.range MAX_STEP_LENGTH).reverse.find? (fun i => r.get? i == some ' ')

/-- The split position chosen for an over-long step: sentence boundary,
else last space before the cut, else a hard split at the max length
(the code maps a `rfind` result `<= 0` to the hard split). -/
def long_split_pos (r : List Char) : Nat :=
  match findSentenceIdx r with
  | some i => i + 1
  | none =>
    match rfindSpace r with
    | some p => if p = 0 then MAX_STEP_LENGTH else p
    | none => MAX_STEP_LENGTH

/-- The `while remaining:` loop that re-splits one over-long step.  The
fuel argument makes the recursion structural; `split_long_steps` supplies
enough fuel (the loop shortens `remaining` by at least one character per
iteration). -/
def splitLongGo : Nat → List Char → List (List Char)
  | 0, _ => []
  | fuel + 1, r =>
    if r.isEmpty then []
    else if r.length ≤ MAX_STEP_LENGTH then [r]
    else
      pstrip (r.take (long_split_pos r))
        :: splitLongGo fuel (pstrip (r.drop (long_split_pos r)))

/-- Phase 2 of `_parse_instructions`: steps within the bound pass through,
over-long steps run the re-splitting loop. -/
def split_long_steps (steps : List (List Char)) : List (List Char) :=
  steps.flatMap (fun step =>
    if step.length ≤ MAX_STEP_LENGTH then [step]
    else splitLongGo (step.length + 1) step)

/-- The placeholder step for an empty instructions blob. -/
def no_instructions_step : List Char := lc "No instructions available"

/-- `TheMealDBAdapter._parse_instructions`, in full. -/
def parse_instructions (text : List Char) : List (List Char) :=
  if text.isEmpty then [no_instructions_step]
  else if (split_long_steps (select_steps text)).isEmpty then [no_instructions_step]
  else split_long_steps (select_steps text)

/-- The distinguishing external-id marker (`'ext_'`). -/
def ext_marker : List Char := lc "ext_"

/-- `TheMealDBAdapter._transform_meal_to_recipe`. -/
def transform_meal_to_recipe (meal : Meal) (now : Nat) : Recipe :=
  { id := ext_marker ++ meal.idMeal
  , title := meal.strMeal.getD (lc "Unknown Recipe")
  , description := lc "Delicious " ++ meal.strMeal.getD (lc "recipe")
      ++ lc " from " ++ meal.strArea.getD (lc "Unknown") ++ lc " cuisine."
  , ingredients := parse_ingredients meal.ingredientSlots
  , instructions := parse_instructions (meal.strInstructions.getD [])
  , tags :=
      (if truthy meal.strCategory then [meal.strCategory.getD []] else []) ++
      (if truthy meal.strTags then
        (((meal.strTags.getD []).splitOn ',').map pstrip).filter
          (fun t => !t.isEmpty)
      else [])
  , cuisine := meal.strArea.getD (lc "International")
  , source := RecipeSource.external
  , created_at := now
  , updated_at := now }

/-- The id `TheMealDBAdapter.get_recipe_by_id` sends to the provider:
the `'ext_'` marker, when present, is removed first. -/
def lookup_request_id (meal_id : List Char) : List Char :=
  if ext_marker.isPrefixOf meal_id then meal_id.drop 4 else meal_id

/-- Outcome of one gathered `random.php` request inside
`TheMealDBAdapter.get_random_recipes`: the task raised, `_make_request`
returned `None`, or a JSON object with its `meals` array. -/
inductive FetchOutcome where
  | raised : FetchOutcome
  | failed : FetchOutcome
  | meals : List Meal → FetchOutcome

/-- `TheMealDBAdapter.get_random_recipes` after the gather: keep the first
meal of every response that is a dict with a truthy `meals` list. -/
def get_random_recipes (responses : List FetchOutcome) (now : Nat) : List Recipe :=
  responses.flatMap (fun o =>
    match o with
    | .meals (m :: _) => [transform_meal_to_recipe m now]
    | _ => [])

/-!
## API handlers — duplicate-title rules of `app/routes/api.py`
-/

/-- The observable outcome of a create/update handler. -/
inductive ApiResponse where
  | ok (r : Recipe)
  | created (r : Recipe)
  | err (status_code : Nat)
deriving DecidableEq, Repr

/-- The `create_recipe` handler: the 422 field checks, then the 409
case-insensitive duplicate-title rule over the internal recipes, then the
storage create. -/
def create_recipe_api (store : Store) (d : RecipeCreate)
    (new_id : List Char) (now : Nat) : Store × ApiResponse :=
  if d.title.isEmpty || (pstrip d.title).isEmpty then (store, .err 422)
  else if d.ingredients.isEmpty then (store, .err 422)
  else if d.instructions.isEmpty then (store, .err 422)
  else if (get_all_recipes store).any
      (fun existing => plower existing.title == plower d.title) then
    (store, .err 409)
  else
    let res := create_recipe store new_id d now
    (res.1, .created res.2)

/-- The `update_recipe` handler: 400 on a blank id, 404 when no internal
recipe has the id, 409 when a different recipe already carries the title
case-insensitively, else the storage update. -/
def update_recipe_api (store : Store) (recipe_id : List Char)
    (d : RecipeUpdate) (now : Nat) : Store × ApiResponse :=
  if recipe_id.isEmpty || (pstrip recipe_id).isEmpty then (store, .err 400)
  else
    match get_recipe store (pstrip recipe_id) with
    | none => (store, .err 404)
    | some _ =>
      if (get_all_recipes store).any (fun r =>
          !(r.id == recipe_id) && plower r.title == plower d.title) then
        (store, .err 409)
      else
        match update_recipe store (pstrip recipe_id) d now with
        | (store2, some r2) => (store2, .ok r2)
        | (store2, none) => (store2, .err 500)

/-!
## Verified properties
-/

/-- A sample internal recipe used to instantiate closed witnesses. -/
def sampleInternal : Recipe :=
  { id := lc "11111111-1111-1111-1111-111111111111"
  , title := lc "Pasta Primavera"
  , description := lc "A light pasta dish"
  , ingredients := [lc "300g pasta", lc "2 zucchini"]
  , instructions := [lc "Boil the pasta", lc "Toss with vegetables"]
  , tags := [lc "pasta", lc "vegetarian"]
  , cuisine := lc "Italian"
  , source := RecipeSource.internal
  , created_at := 0, updated_at := 0 }

/-- A sample external recipe used to instantiate closed witnesses. -/
def sampleExternal : Recipe :=
  { id := lc "ext_52772"
  , title := lc "Teriyaki Chicken Casserole"
  , description := lc "Delicious Teriyaki Chicken Casserole from Japanese cuisine."
  , ingredients := [lc "3/4 cup soy sauce"]
  , instructions := [lc "Preheat oven to 350 degrees"]
  , tags := [lc "chicken"]
  , cuisine := lc "Japanese"
  , source := RecipeSource.external
  , created_at := 0, updated_at := 0 }

/-- Claim C1: for every query and limit >= 1, `combined_search` returns the
first `limit` elements of internal ++ external in that order, the uncapped
per-source counts, and `total_count = min limit (internal + external)`. -/
theorem combined_search_merge_and_counts (query : List Char) (limit : Nat)
    (hlim : 1 ≤ limit) (internal external : List Recipe) :
    (combined_search query limit (.ok internal) (.ok external)).recipes
      = (internal ++ external).take limit ∧
    (combined_search query limit (.ok internal) (.ok external)).internal_count
      = internal.length ∧
    (combined_search query limit (.ok internal) (.ok external)).external_count
      = external.length ∧
    (combined_search query limit (.ok internal) (.ok external)).total_count
      = min limit (internal.length + external.length) := by
  refine ⟨?_, rfl, rfl, ?_⟩
  · show (if (internal ++ external).length > limit
        then (internal ++ external).take limit else internal ++ external)
      = (internal ++ external).take limit
    by_cases h : (internal ++ external).length > limit
    · rw [if_pos h]
    · rw [if_neg h, List.take_of_length_le (Nat.le_of_not_lt h)]
  · show (if (internal ++ external).length > limit
        then (internal ++ external).take limit else internal ++ external).length
      = min limit (internal.length + external.length)
    by_cases h : (internal ++ external).length > limit
    · rw [if_pos h, List.length_take, List.length_append]
    · rw [if_neg h, ← List.length_append]
      exact (Nat.min_eq_right (Nat.le_of_not_lt h)).symm

/-- Closed instance of `combined_search_merge_and_counts` at limit 1. -/
theorem combined_search_merge_and_counts_witness :
    (combined_search (lc "pasta") 1 (.ok [sampleInternal]) (.ok [sampleExternal])).recipes
      = ([sampleInternal] ++ [sampleExternal]).take 1 ∧
    (combined_search (lc "pasta") 1 (.ok [sampleInternal]) (.ok [sampleExternal])).internal_count
      = [sampleInternal].length ∧
    (combined_search (lc "pasta") 1 (.ok [sampleInternal]) (.ok [sampleExternal])).external_count
      = [sampleExternal].length ∧
    (combined_search (lc "pasta") 1 (.ok [sampleInternal]) (.ok [sampleExternal])).total_count
      = min 1 ([sampleInternal].length + [sampleExternal].length) :=
  combined_search_merge_and_counts (lc "pasta") 1 (by decide) [sampleInternal] [sampleExternal]

/-- Claim C2: a failed branch of `combined_search` contributes an empty
result set (count 0) while the other branch's results are returned and
counted; when both branches fail the result is all-zero with the query
echoed, and no error escapes (the embedding is a total function). -/
theorem combined_search_failure_isolation (query : List Char) (limit : Nat)
    (err1 err2 : String) (internal external : List Recipe) :
    ((combined_search query limit (.error err1) (.ok external)).internal_count = 0 ∧
     (combined_search query limit (.error err1) (.ok external)).external_count
        = external.length ∧
     (combined_search query limit (.error err1) (.ok external)).recipes
        = external.take limit) ∧
    ((combined_search query limit (.ok internal) (.error err2)).external_count = 0 ∧
     (combined_search query limit (.ok internal) (.error err2)).internal_count
        = internal.length ∧
     (combined_search query limit (.ok internal) (.error err2)).recipes
        = internal.take limit) ∧
    combined_search query limit (.error err1) (.error err2)
      = { recipes := [], total_count := 0, internal_count := 0
        , external_count := 0, query := query } := by
  refine ⟨⟨rfl, rfl, ?_⟩, ⟨rfl, rfl, ?_⟩, ?_⟩
  · simp only [combined_search, List.nil_append]
    by_cases h : external.length > limit
    · rw [if_pos h]
    · rw [if_neg h, List.take_of_length_le (Nat.le_of_not_lt h)]
  · simp only [combined_search, List.append_nil]
    by_cases h : internal.length > limit
    · rw [if_pos h]
    · rw [if_neg h, List.take_of_length_le (Nat.le_of_not_lt h)]
  · rfl

/-- The five searchable fields of a recipe, as the spec lists them:
title, description, cuisine, the ingredients and the tags. -/
def searchable_fields (r : Recipe) : List (List Char) :=
  [r.title, r.description, r.cuisine] ++ r.ingredients ++ r.tags

/-- The spec's wording of the local search predicate: the query is a
case-insensitive substring of at least one searchable field. -/
def recipe_matches_spec (query : List Char) (r : Recipe) : Bool :=
  (searchable_fields r).any (fun f => substr (plower query) (plower f))

/-- Claim C8: the local catalog search returns exactly the stored INTERNAL
recipes for which the query is a case-insensitive substring of the title,
the description, an ingredient, a tag or the cuisine. -/
theorem search_recipes_spec_match (store : Store) (query : List Char) :
    search_recipes store query
      = (store.map Prod.snd).filter
          (fun r => r.source == RecipeSource.internal
            && recipe_matches_spec query r) := by
  unfold search_recipes
  apply List.filter_congr
  intro r _
  simp only [recipe_matches, recipe_matches_spec, searchable_fields,
    List.any_append, List.any_cons, List.any_nil, Bool.or_false]
  generalize substr (plower query) (plower r.title) = b1
  generalize substr (plower query) (plower r.description) = b2
  generalize r.ingredients.any (fun i => substr (plower query) (plower i)) = b3
  generalize r.tags.any (fun t => substr (plower query) (plower t)) = b4
  generalize substr (plower query) (plower r.cuisine) = b5
  cases b1 <;> cases b2 <;> cases b3 <;> cases b4 <;> cases b5 <;> rfl

/-- Claim C9: only INTERNAL recipes are mutable or deletable; a stored
non-INTERNAL recipe is untouched by update (not-found) and delete
(false), and the read operations only ever return INTERNAL recipes. -/
theorem catalog_internal_only (store : Store) (recipe_id : List Char)
    (d : RecipeUpdate) (now : Nat) :
    (∀ r, store.lookup recipe_id = some r → r.source ≠ RecipeSource.internal →
        update_recipe store recipe_id d now = (store, none) ∧
        delete_recipe store recipe_id = (store, false)) ∧
    (∀ r ∈ get_all_recipes store, r.source = RecipeSource.internal) ∧
    (∀ r, get_recipe store recipe_id = some r →
        r.source = RecipeSource.internal) := by
  refine ⟨?_, ?_, ?_⟩
  · intro r hl hns
    have hb : (r.source == RecipeSource.internal) = false := by
      simpa using hns
    constructor
    · unfold update_recipe
      rw [hl]
      simp [hb]
    · unfold delete_recipe
      rw [hl]
      simp [hb]
  · intro r hr
    have := List.of_mem_filter hr
    simpa using this
  · intro r hr
    unfold get_recipe at hr
    cases hl : store.lookup recipe_id with
    | none => rw [hl] at hr; simp at hr
    | some r0 =>
      rw [hl] at hr
      cases hs : (r0.source == RecipeSource.internal) with
      | false => simp [hs] at hr
      | true =>
        simp [hs] at hr
        subst hr
        simpa using hs

/-- Store holding a single EXTERNAL recipe, for the C9 witness. -/
def extStore : Store := [(lc "ext_52772", sampleExternal)]

/-- A well-formed update payload, for witnesses. -/
def sampleUpdate : RecipeUpdate :=
  { title := lc "New Title", description := lc "New description"
  , ingredients := [lc "1 egg"], instructions := [lc "Mix well"]
  , tags := [], cuisine := lc "French" }

/-- Closed instance of `catalog_internal_only`: the stored EXTERNAL recipe
can be neither updated nor deleted. -/
theorem catalog_internal_only_witness :
    update_recipe extStore (lc "ext_52772") sampleUpdate 7 = (extStore, none) ∧
    delete_recipe extStore (lc "ext_52772") = (extStore, false) :=
  (catalog_internal_only extStore (lc "ext_52772") sampleUpdate 7).1
    sampleExternal (by decide) (by decide)

/-- Claim C10: creating with a title that case-insensitively duplicates an
existing internal recipe's title, or updating a recipe to a title that
duplicates a *different* recipe's title, is rejected with 409 and leaves
the store unchanged. -/
theorem duplicate_title_conflict (store : Store) (d : RecipeCreate)
    (new_id recipe_id : List Char) (now : Nat)
    (htitle : pstrip d.title ≠ [])
    (hing : d.ingredients ≠ [])
    (hins : d.instructions ≠ []) :
    ((∃ r ∈ get_all_recipes store, plower r.title = plower d.title) →
        create_recipe_api store d new_id now = (store, .err 409)) ∧
    (pstrip recipe_id ≠ [] →
     (get_recipe store (pstrip recipe_id)).isSome = true →
     (∃ r ∈ get_all_recipes store, r.id ≠ recipe_id ∧ plower r.title = plower d.title) →
        update_recipe_api store recipe_id d now = (store, .err 409)) := by
  have htitle2 : d.title ≠ [] := by
    intro h
    exact htitle (by rw [h]; rfl)
  constructor
  · rintro ⟨r, hmem, htit⟩
    unfold create_recipe_api
    have h1 : (d.title.isEmpty || (pstrip d.title).isEmpty) = false := by
      simp [List.isEmpty_iff, htitle2, htitle]
    have h2 : d.ingredients.isEmpty = false := by simp [List.isEmpty_iff, hing]
    have h3 : d.instructions.isEmpty = false := by simp [List.isEmpty_iff, hins]
    have h4 : (get_all_recipes store).any
        (fun existing => plower existing.title == plower d.title) = true :=
      List.any_eq_true.mpr ⟨r, hmem, by simpa using htit⟩
    rw [h1, h2, h3, h4]
    simp
  · rintro hid hsome ⟨r, hmem, hne, htit⟩
    unfold update_recipe_api
    have h1 : (recipe_id.isEmpty || (pstrip recipe_id).isEmpty) = false := by
      have : recipe_id ≠ [] := by
        intro h
        exact hid (by rw [h]; rfl)
      simp [List.isEmpty_iff, this, hid]
    rw [h1]
    cases hg : get_recipe store (pstrip recipe_id) with
    | none => rw [hg] at hsome; cases hsome
    | some r0 =>
      have h4 : (get_all_recipes store).any
          (fun x => !(x.id == recipe_id) && plower x.title == plower d.title) = true := by
        refine List.any_eq_true.mpr ⟨r, hmem, ?_⟩
        simp only [Bool.and_eq_true, Bool.not_eq_true', beq_eq_false_iff_ne, beq_iff_eq]
        exact ⟨hne, htit⟩
      rw [h4]
      simp

/-- Two stored internal recipes, for the C10 witness. -/
def internalA : Recipe := { sampleInternal with id := lc "idA" }

/-- Second internal recipe with a distinct title, for the C10 witness. -/
def internalB : Recipe :=
  { sampleInternal with id := lc "idB", title := lc "Tomato Soup" }

/-- Store holding the two internal recipes of the C10 witness. -/
def twoStore : Store := [(lc "idA", internalA), (lc "idB", internalB)]

/-- A payload whose title duplicates internalA's title case-insensitively. -/
def dupCreate : RecipeCreate :=
  { title := lc "PASTA PRIMAVERA", description := lc "dup"
  , ingredients := [lc "1 egg"], instructions := [lc "Mix well"]
  , tags := [], cuisine := lc "Italian" }

/-- Closed instance of `duplicate_title_conflict`: both the create and the
update paths answer 409 on the duplicated title and leave the store as it
was. -/
theorem duplicate_title_conflict_witness :
    create_recipe_api twoStore dupCreate (lc "idNew") 9 = (twoStore, .err 409) ∧
    update_recipe_api twoStore (lc "idB") dupCreate 9 = (twoStore, .err 409) :=
  ⟨(duplicate_title_conflict twoStore dupCreate (lc "idNew") (lc "idB") 9
      (by decide) (by decide) (by decide)).1 ⟨internalA, by decide, by decide⟩,
   (duplicate_title_conflict twoStore dupCreate (lc "idNew") (lc "idB") 9
      (by decide) (by decide) (by decide)).2 (by decide) (by decide)
     ⟨internalA, by decide, by decide⟩⟩

/-- An empty string strips to an empty string. -/
theorem isEmpty_pstrip_of_isEmpty {l : List Char} (h : l.isEmpty = true) :
    (pstrip l).isEmpty = true := by
  rw [List.isEmpty_iff] at h
  subst h
  rfl

/-- The spec's per-slot ingredient rule: skip when the ingredient name is
empty/blank; combine a non-blank measure as `"{measure} {ingredient}"`,
else the bare trimmed name. -/
def parse_ingredient_slot_spec
    (slot : Option (List Char) × Option (List Char)) : Option (List Char) :=
  match slot.1 with
  | none => none
  | some ingredient =>
    if (pstrip ingredient).isEmpty then none
    else
      match slot.2 with
      | some measure =>
        if (pstrip measure).isEmpty then some (pstrip ingredient)
        else some (pstrip measure ++ [' '] ++ pstrip ingredient)
      | none => some (pstrip ingredient)

/-- The spec's ingredient extraction over the slots. -/
def parse_ingredients_spec
    (slots : List (Option (List Char) × Option (List Char))) : List (List Char) :=
  slots.filterMap parse_ingredient_slot_spec

/-- The code's per-slot behaviour agrees with the spec's per-slot rule. -/
theorem parse_ingredient_slot_eq (slot : Option (List Char) × Option (List Char)) :
    parse_ingredient_slot slot = (parse_ingredient_slot_spec slot).toList := by
  obtain ⟨i, m⟩ := slot
  cases i with
  | none => rfl
  | some ing =>
    cases hpi : (pstrip ing).isEmpty with
    | true =>
      simp [parse_ingredient_slot, parse_ingredient_slot_spec, hpi]
    | false =>
      have hi : ing.isEmpty = false := by
        cases h : ing.isEmpty
        · rfl
        · exact absurd (isEmpty_pstrip_of_isEmpty h) (by simp [hpi])
      cases m with
      | none => simp [parse_ingredient_slot, parse_ingredient_slot_spec, hpi, hi]
      | some meas =>
        cases hpm : (pstrip meas).isEmpty with
        | true =>
          simp [parse_ingredient_slot, parse_ingredient_slot_spec, hpi, hi, hpm]
        | false =>
          have hm : meas.isEmpty = false := by
            cases h : meas.isEmpty
            · rfl
            · exact absurd (isEmpty_pstrip_of_isEmpty h) (by simp [hpm])
          simp [parse_ingredient_slot, parse_ingredient_slot_spec, hpi, hi, hpm, hm]

/-- Mapping a slot to zero-or-one results and flattening is a `filterMap`. -/
theorem flatMap_toList_eq_filterMap {α β : Type} (f : α → Option β) (l : List α) :
    l.flatMap (fun x => (f x).toList) = l.filterMap f := by
  induction l with
  | nil => rfl
  | cons x xs ih =>
    rw [List.flatMap_cons, List.filterMap_cons]
    cases f x <;> simp [ih]

/-- The 20-slot example record of the spec: slots 1 and 3 carry data,
slot 2 is blank, the rest are missing. -/
def exampleSlots : List (Option (List Char) × Option (List Char)) :=
  [(some (lc "egg noodles"), some (lc "200g")),
   (some (lc ""), some (lc "")),
   (some (lc "cornflour"), some (lc "3 tbsp"))] ++ List.replicate 17 (none, none)

/-- Claim C5: ingredient extraction walks the slot pairs in order,
skips blank names, joins a non-blank measure as `"{measure} {ingredient}"`
and otherwise keeps the bare trimmed name; on the spec's example record it
yields exactly the two expected strings. -/
theorem parse_ingredients_slots (slots : List (Option (List Char) × Option (List Char))) :
    parse_ingredients slots = parse_ingredients_spec slots ∧
    parse_ingredients exampleSlots
      = [lc "200g egg noodles", lc "3 tbsp cornflour"] := by
  constructor
  · show slots.flatMap parse_ingredient_slot = slots.filterMap parse_ingredient_slot_spec
    rw [show parse_ingredient_slot = (fun s => (parse_ingredient_slot_spec s).toList)
      from funext parse_ingredient_slot_eq]
    exact flatMap_toList_eq_filterMap _ _
  · decide

/-- Claim C6: a normalized provider record's id is the native id behind
the `'ext_'` marker, and the by-id lookup strips that marker back off
before issuing the provider request, so ids round-trip. -/
theorem external_id_roundtrip (meal : Meal) (now : Nat) :
    (transform_meal_to_recipe meal now).id = ext_marker ++ meal.idMeal ∧
    lookup_request_id (transform_meal_to_recipe meal now).id = meal.idMeal ∧
    ext_marker ++ lc "52772" = lc "ext_52772" ∧
    lookup_request_id (lc "ext_52772") = lc "52772" := by
  refine ⟨rfl, ?_, by decide, by decide⟩
  show lookup_request_id (ext_marker ++ meal.idMeal) = meal.idMeal
  have hpre : ext_marker.isPrefixOf (ext_marker ++ meal.idMeal) = true := by
    rw [List.isPrefixOf_iff_prefix]
    exact List.prefix_append _ _
  unfold lookup_request_id
  rw [hpre]
  simp only [if_true]
  rw [show (4 : Nat) = ext_marker.length from rfl, List.drop_left]

/-- The meal, if any, kept from one gathered random-fetch response. -/
def random_success : FetchOutcome → Option Meal
  | .meals (m :: _) => some m
  | _ => none

/-- A concrete provider meal used in closed instances. -/
def sampleMeal : Meal :=
  { idMeal := lc "52772"
  , strMeal := some (lc "Teriyaki Chicken Casserole")
  , strInstructions := some (lc "Preheat oven to 350 degrees")
  , strArea := some (lc "Japanese")
  , strCategory := some (lc "Chicken")
  , strTags := some (lc "Meat,Casserole")
  , ingredientSlots := [(some (lc "soy sauce"), some (lc "3/4 cup"))] }

/-- Claim C7: the random batch returns exactly the recipes of the
requests that succeeded, in order, never more than were requested, and
failures are omissions rather than errors (the embedding is total); with
5 requests of which 2 fail it returns exactly 3 recipes. -/
theorem get_random_recipes_collects (responses : List FetchOutcome) (now : Nat) :
    get_random_recipes responses now
      = (responses.filterMap random_success).map
          (fun m => transform_meal_to_recipe m now) ∧
    (get_random_recipes responses now).length ≤ responses.length ∧
    (get_random_recipes
        [.meals [sampleMeal], .raised, .meals [sampleMeal], .failed,
         .meals [sampleMeal]] now).length = 3 := by
  have h1 : ∀ (rs : List FetchOutcome),
      get_random_recipes rs now = (rs.filterMap random_success).map
        (fun m => transform_meal_to_recipe m now) := by
    intro rs
    induction rs with
    | nil => rfl
    | cons o os ih =>
      unfold get_random_recipes at ih ⊢
      rw [List.flatMap_cons, List.filterMap_cons, ih]
      cases o with
      | raised => simp [random_success]
      | failed => simp [random_success]
      | meals ms => cases ms <;> simp [random_success]
  refine ⟨h1 responses, ?_, rfl⟩
  rw [h1 responses, List.length_map]
  exact List.length_filterMap_le _ _

/-!
### Bounds and content preservation of the step re-splitting pass
-/

/-- Every scanned boundary index is below the max-length cut. -/
theorem boundary_idxs_le {i : Nat} (h : i ∈ boundary_idxs) :
    i + 1 ≤ MAX_STEP_LENGTH := by
  unfold boundary_idxs at h
  obtain ⟨k, _, rfl⟩ := List.mem_map.mp h
  have h500 : MAX_STEP_LENGTH = 500 := rfl
  omega

/-- A found sentence boundary sits below the max-length cut. -/
theorem findSentenceIdx_le {r : List Char} {i : Nat}
    (h : findSentenceIdx r = some i) : i + 1 ≤ MAX_STEP_LENGTH :=
  boundary_idxs_le (List.mem_of_find?_eq_some h)

/-- A found last-space position sits below the max-length cut. -/
theorem rfindSpace_lt {r : List Char} {p : Nat}
    (h : rfindSpace r = some p) : p < MAX_STEP_LENGTH := by
  have hmem := List.mem_of_find?_eq_some h
  rw [List.mem_reverse, List.mem_range] at hmem
  exact hmem

/-- The chosen split position is at least 1. -/
theorem long_split_pos_pos (r : List Char) : 1 ≤ long_split_pos r := by
  unfold long_split_pos
  cases h1 : findSentenceIdx r with
  | some i => show 1 ≤ i + 1; omega
  | none =>
    cases h2 : rfindSpace r with
    | some p =>
      show 1 ≤ if p = 0 then MAX_STEP_LENGTH else p
      by_cases hp : p = 0
      · rw [if_pos hp]; decide
      · rw [if_neg hp]; omega
    | none => show 1 ≤ MAX_STEP_LENGTH; decide

/-- The chosen split position never exceeds the max step length. -/
theorem long_split_pos_le (r : List Char) : long_split_pos r ≤ MAX_STEP_LENGTH := by
  unfold long_split_pos
  cases h1 : findSentenceIdx r with
  | some i => exact findSentenceIdx_le h1
  | none =>
    cases h2 : rfindSpace r with
    | some p =>
      show (if p = 0 then MAX_STEP_LENGTH else p) ≤ MAX_STEP_LENGTH
      by_cases hp : p = 0
      · rw [if_pos hp]
      · rw [if_neg hp]
        exact Nat.le_of_lt (rfindSpace_lt h2)
    | none => exact Nat.le_refl _

/-- Dropping a satisfying run never lengthens a list. -/
theorem dropWhile_length_le (p : Char → Bool) (l : List Char) :
    (l.dropWhile p).length ≤ l.length := by
  induction l with
  | nil => exact Nat.le_refl _
  | cons c cs ih =>
    rw [List.dropWhile_cons]
    by_cases h : p c = true
    · rw [if_pos h]
      exact Nat.le_trans ih (Nat.le_succ _)
    · rw [if_neg h]

/-- Stripping never lengthens a string. -/
theorem pstrip_length_le (l : List Char) : (pstrip l).length ≤ l.length := by
  unfold pstrip
  rw [List.length_reverse]
  calc ((l.dropWhile isWS).reverse.dropWhile isWS).length
      ≤ (l.dropWhile isWS).reverse.length := dropWhile_length_le _ _
    _ = (l.dropWhile isWS).length := List.length_reverse _
    _ ≤ l.length := dropWhile_length_le _ _

/-- Dropping leading whitespace preserves the non-whitespace characters. -/
theorem filter_dropWhile_ws (l : List Char) :
    (l.dropWhile isWS).filter (fun c => !isWS c) = l.filter (fun c => !isWS c) := by
  induction l with
  | nil => rfl
  | cons c cs ih =>
    cases h : isWS c with
    | true => rw [List.dropWhile_cons]; simp [h, ih]
    | false => simp [List.dropWhile_cons, List.filter_cons, h]

/-- Stripping preserves the non-whitespace characters. -/
theorem filter_pstrip (l : List Char) :
    (pstrip l).filter (fun c => !isWS c) = l.filter (fun c => !isWS c) := by
  unfold pstrip
  rw [List.filter_reverse, filter_dropWhile_ws, List.filter_reverse,
    List.reverse_reverse, filter_dropWhile_ws]

/-- Every piece the re-splitting loop emits is within the max step length. -/
theorem splitLongGo_bound (fuel : Nat) :
    ∀ (r : List Char), ∀ s ∈ splitLongGo fuel r, s.length ≤ MAX_STEP_LENGTH := by
  induction fuel with
  | zero => intro r s hs; simp [splitLongGo] at hs
  | succ n ih =>
    intro r s hs
    unfold splitLongGo at hs
    by_cases h1 : r.isEmpty = true
    · rw [if_pos h1] at hs; simp at hs
    · rw [if_neg h1] at hs
      by_cases h2 : r.length ≤ MAX_STEP_LENGTH
      · rw [if_pos h2] at hs
        simp at hs; subst hs; exact h2
      · rw [if_neg h2] at hs
        rcases List.mem_cons.mp hs with h | h
        · subst h
          calc (pstrip (r.take (long_split_pos r))).length
              ≤ (r.take (long_split_pos r)).length := pstrip_length_le _
            _ ≤ long_split_pos r := by
                rw [List.length_take]; exact Nat.min_le_left _ _
            _ ≤ MAX_STEP_LENGTH := long_split_pos_le r
        · exact ih _ s h

/-- With enough fuel, the re-splitting loop preserves the non-whitespace
characters of the step, in order. -/
theorem splitLongGo_content (fuel : Nat) :
    ∀ (r : List Char), r.length < fuel →
      (splitLongGo fuel r).flatten.filter (fun c => !isWS c)
        = r.filter (fun c => !isWS c) := by
  induction fuel with
  | zero => intro r h; exact absurd h (Nat.not_lt_zero _)
  | succ n ih =>
    intro r hlt
    unfold splitLongGo
    by_cases h1 : r.isEmpty = true
    · rw [if_pos h1]
      rw [List.isEmpty_iff] at h1
      subst h1; rfl
    · rw [if_neg h1]
      by_cases h2 : r.length ≤ MAX_STEP_LENGTH
      · rw [if_pos h2]; simp
      · rw [if_neg h2]
        have hpos := long_split_pos_pos r
        have hlen : (pstrip (r.drop (long_split_pos r))).length < n := by
          have hle : (pstrip (r.drop (long_split_pos r))).length
              ≤ r.length - long_split_pos r := by
            calc (pstrip (r.drop (long_split_pos r))).length
                ≤ (r.drop (long_split_pos r)).length := pstrip_length_le _
              _ = r.length - long_split_pos r := List.length_drop _ _
          have h500 : MAX_STEP_LENGTH = 500 := rfl
          omega
        rw [List.flatten_cons, List.filter_append, filter_pstrip,
          ih _ hlen, filter_pstrip, ← List.filter_append,
          List.take_append_drop]

/-- Claim C3 (amended): after the post-processing pass no step exceeds the
max instruction-step length, and the produced steps carry exactly the
non-whitespace characters of the input steps, in order (whitespace at the
chosen split boundaries is trimmed away by the pass). -/
theorem split_long_steps_bound_and_content (steps : List (List Char)) :
    (∀ s ∈ split_long_steps steps, s.length ≤ MAX_STEP_LENGTH) ∧
    (split_long_steps steps).flatten.filter (fun c => !isWS c)
      = steps.flatten.filter (fun c => !isWS c) := by
  constructor
  · intro s hs
    unfold split_long_steps at hs
    rw [List.mem_flatMap] at hs
    obtain ⟨step, _, hmem⟩ := hs
    by_cases h : step.length ≤ MAX_STEP_LENGTH
    · rw [if_pos h] at hmem
      simp at hmem
      subst hmem
      exact h
    · rw [if_neg h] at hmem
      exact splitLongGo_bound _ _ s hmem
  · induction steps with
    | nil => rfl
    | cons st rest ih =>
      unfold split_long_steps at ih ⊢
      rw [List.flatMap_cons, List.flatten_append, List.filter_append,
        List.flatten_cons, List.filter_append, ih]
      congr 1
      by_cases h : st.length ≤ MAX_STEP_LENGTH
      · rw [if_pos h]; simp
      · rw [if_neg h]
        exact splitLongGo_content _ _ (Nat.lt_succ_self _)

/-- Closed instance of `split_long_steps_bound_and_content` on a short
step list. -/
theorem split_long_steps_bound_and_content_witness :
    (lc "Stir well.").length ≤ MAX_STEP_LENGTH ∧
    (split_long_steps [lc "Stir well."]).flatten.filter (fun c => !isWS c)
      = [lc "Stir well."].flatten.filter (fun c => !isWS c) :=
  ⟨(split_long_steps_bound_and_content [lc "Stir well."]).1
      (lc "Stir well.") (by decide),
   (split_long_steps_bound_and_content [lc "Stir well."]).2⟩

/-- A 502-character step: 499 letters, one space, two letters.  The pass
splits it at the space and strips the boundary, losing the space. -/
def cex_long_step : List Char :=
  List.replicate 499 'a' ++ [' '] ++ List.replicate 2 'b'

set_option maxRecDepth 100000 in
/-- Claim C3 as stated is refuted: concatenating the produced steps does
not reproduce the original text — the space at the chosen split boundary
is dropped by the pass. -/
theorem split_long_steps_drops_chars :
    (split_long_steps [cex_long_step]).flatten ≠ [cex_long_step].flatten := by
  decide

/-- The spec's wording of phase-1 step extraction: a digit within the
first ~10 characters selects the numbered-list split (non-empty trimmed
fragments); otherwise split on normalized line breaks and keep fragments
whose trimmed length exceeds 10. -/
def extract_steps_spec (text : List Char) : List (List Char) :=
  if 0 < (text.take 10).countP (fun c => c.isDigit) then
    ((splitNumbered text).filter (fun s => !(pstrip s).isEmpty)).map pstrip
  else
    (((normalizeNewlines text).splitOn '\n').filter
      (fun s => 10 < (pstrip s).length)).map pstrip

/-- Phase-1 extraction of the code agrees with the spec's wording. -/
theorem extract_steps_eq_spec (text : List Char) :
    extract_steps text = extract_steps_spec text := by
  unfold extract_steps extract_steps_spec
  by_cases hd : (text.take 10).any Char.isDigit = true
  · rw [if_pos hd, if_pos (List.countP_pos_iff.mpr (List.any_eq_true.mp hd))]
    rw [List.filter_map]
    rfl
  · rw [if_neg hd, if_neg
      (fun hpos => hd (List.any_eq_true.mpr (List.countP_pos_iff.mp hpos)))]
    rw [List.filter_map]
    apply congrArg (List.map pstrip)
    apply List.filter_congr
    intro s _
    show (!(pstrip s).isEmpty && decide ((pstrip s).length > 10))
        = decide (10 < (pstrip s).length)
    cases h : pstrip s with
    | nil => rfl
    | cons c cs => simp

/-- The re-splitting pass never maps a non-empty step list to nothing. -/
theorem split_long_steps_ne_nil (s : List Char) (steps : List (List Char)) :
    split_long_steps (s :: steps) ≠ [] := by
  unfold split_long_steps
  rw [List.flatMap_cons]
  intro hcontra
  rw [List.append_eq_nil] at hcontra
  obtain ⟨h1, _⟩ := hcontra
  by_cases h : s.length ≤ MAX_STEP_LENGTH
  · rw [if_pos h] at h1; cases h1
  · rw [if_neg h] at h1
    unfold splitLongGo at h1
    have hne : s.isEmpty = false := by
      cases s with
      | nil => exact absurd (by decide : ([] : List Char).length ≤ MAX_STEP_LENGTH) h
      | cons a as => rfl
    rw [hne] at h1
    rw [if_neg (by simp)] at h1
    rw [if_neg h] at h1
    cases h1

/-- Claim C4: phase-1 extraction selects its method as the spec words it,
an empty blob yields the literal placeholder step, and when neither
method yields a step the whole trimmed text is the single phase-1 step. -/
theorem parse_instructions_method_selection (text : List Char) :
    extract_steps text = extract_steps_spec text ∧
    parse_instructions text =
      (if text = [] then [no_instructions_step]
       else split_long_steps
         (if extract_steps_spec text = [] then [pstrip text]
          else extract_steps_spec text)) := by
  refine ⟨extract_steps_eq_spec text, ?_⟩
  by_cases he : text = []
  · subst he; rfl
  · have heb : text.isEmpty = false := by
      cases text
      · exact absurd rfl he
      · rfl
    rw [if_neg he]
    unfold parse_instructions select_steps
    rw [heb, if_neg (by simp), extract_steps_eq_spec text]
    by_cases hs : extract_steps_spec text = []
    · have hsb : (extract_steps_spec text).isEmpty = true := by
        rw [List.isEmpty_iff]; exact hs
      rw [hsb, if_pos rfl, if_pos hs]
      have hfb : (split_long_steps [pstrip text]).isEmpty = false := by
        cases hf : split_long_steps [pstrip text]
        · exact absurd hf (split_long_steps_ne_nil (pstrip text) [])
        · rfl
      rw [hfb, if_neg (by simp)]
    · have hsb : (extract_steps_spec text).isEmpty = false := by
        cases hf : extract_steps_spec text
        · exact absurd hf hs
        · rfl
      rw [hsb, if_neg (show ¬(false = true) by simp), if_neg hs]
      obtain ⟨h0, t0, ht⟩ := List.exists_cons_of_ne_nil hs
      rw [ht]
      have hfb : (split_long_steps (h0 :: t0)).isEmpty = false := by
        cases hf : split_long_steps (h0 :: t0)
        · exact absurd hf (split_long_steps_ne_nil h0 t0)
        · rfl
      rw [hfb, if_neg (by simp)]
